/-
Verification of the session and message pipeline of an ACP (Agent Client
Protocol) bridge.  The definitions below are a shallow embedding of the
TypeScript source: JavaScript strings become `String`, machine numbers
become `Nat`/`Int`/`Rat` as appropriate, fallible code returns
`Option`/`Except`, and stateful classes become explicit state passing.
-/
import Mathlib

namespace AcpBridge

/-! ## String helpers

JavaScript `String.includes(sub)` is substring (infix) containment and
`String.startsWith(pre)` is prefix testing.  We embed both on the
character lists underlying `String`. -/

/-- JS `s.includes(sub)`: `sub` occurs somewhere inside `s`. -/
def strIncludes (s sub : String) : Bool :=
  decide (sub.data <:+: s.data)

/-- `sub` occurs in `s` at character index `i`. -/
def occursAtB (s sub : String) (i : Nat) : Bool :=
  decide (sub.data <+: s.data.drop i)

/-- Index of the first occurrence of `sub` in `s` (if any): the notion of
"the marker that occurs first in the text" used by the specification. -/
def indexOfSub (s sub : String) : Option Nat :=
  (List.range (s.data.length + 1)).find? (occursAtB s sub)

theorem infix_iff_exists_drop (l₁ l₂ : List Char) :
    l₁ <:+: l₂ ↔ ∃ i, i ≤ l₂.length ∧ l₁ <+: l₂.drop i := by
  constructor
  · rintro ⟨s, t, rfl⟩
    refine ⟨s.length, by simp, t, ?_⟩
    rw [List.append_assoc, List.drop_left]
  · rintro ⟨i, _, t, ht⟩
    refine ⟨l₂.take i, t, ?_⟩
    rw [List.append_assoc, ht, List.take_append_drop]

theorem strIncludes_iff_occursAt (s sub : String) :
    strIncludes s sub = true ↔ ∃ i, i ≤ s.data.length ∧ occursAtB s sub i = true := by
  simp only [strIncludes, occursAtB, decide_eq_true_eq]
  exact infix_iff_exists_drop sub.data s.data

theorem indexOfSub_ne_none_iff (s sub : String) :
    indexOfSub s sub ≠ none ↔ strIncludes s sub = true := by
  rw [strIncludes_iff_occursAt]
  unfold indexOfSub
  rw [Option.ne_none_iff_isSome, List.find?_isSome]
  constructor
  · rintro ⟨i, hi, hocc⟩
    exact ⟨i, by simpa [Nat.lt_succ_iff] using List.mem_range.mp hi, hocc⟩
  · rintro ⟨i, hi, hocc⟩
    exact ⟨i, List.mem_range.mpr (Nat.lt_succ_of_le hi), hocc⟩

/-! ## Context Monitor (`src/src/cli.ts`, class `ContextMonitor`)

Per-session token-usage estimate with threshold warnings.  JavaScript
number arithmetic on the ratio is modelled with `Rat`; the token counter
is an integer throughout the source. -/

/-- Warning level of a `ContextWarning` (`level: 'warning' | 'critical'`). -/
inductive WarningLevel
  | warning
  | critical
  deriving DecidableEq, Repr

/-- `ContextWarning` as returned by `ContextMonitor.addMessage` (the
human-readable `message` string is percentage formatting and carries no
control flow; it is not modelled). -/
structure ContextWarning where
  level : WarningLevel
  usage : Rat
  deriving DecidableEq, Repr

/-- `SessionStats` tracked by the monitor (`lastUpdate : Date` duplicates
`lastActivity` and is dropped). -/
structure SessionStats where
  usage : Rat
  estimatedTokens : Nat
  messages : Nat
  turnCount : Nat
  lastActivity : Nat
  deriving DecidableEq, Repr

/-- `this.CONTEXT_LIMIT = 200000`. -/
def CONTEXT_LIMIT : Nat := 200000

/-- `this.WARNING_THRESHOLD = 0.8`. -/
def WARNING_THRESHOLD : Rat := 8/10

/-- `this.CRITICAL_THRESHOLD = 0.95`. -/
def CRITICAL_THRESHOLD : Rat := 95/100

/-- JS `Math.min` on two (finite) numbers, in an executable form. -/
def ratMin (a b : Rat) : Rat := if a ≤ b then a else b

theorem ratMin_eq_min (a b : Rat) : ratMin a b = min a b := (min_def a b).symm

/-- `ContextMonitor.estimateTokens`: `Math.ceil(content.length / 4)`. -/
def estimateTokens (content : String) : Nat :=
  (content.length + 3) / 4

/-- `ContextMonitor.addMessage` on the stats of one session.
`stats` is `this.sessions.get(sessionId)` (`none` when absent, in which
case the zero-initialised record is used); returns the updated stats and
the warning value returned to the caller. -/
def addMessage (stats : Option SessionStats) (content : String)
    (isUserRole : Bool) (now : Nat) : SessionStats × Option ContextWarning :=
  let tokens := estimateTokens content
  let s := stats.getD { usage := 0, estimatedTokens := 0, messages := 0,
                        turnCount := 0, lastActivity := now }
  let est := s.estimatedTokens + tokens
  let usage : Rat := ratMin ((est : Rat) / (CONTEXT_LIMIT : Rat)) 1
  let s' : SessionStats :=
    { usage := usage,
      estimatedTokens := est,
      messages := s.messages + 1,
      turnCount := if isUserRole then s.turnCount + 1 else s.turnCount,
      lastActivity := now }
  if usage ≥ CRITICAL_THRESHOLD then
    (s', some { level := .critical, usage := usage })
  else if usage ≥ WARNING_THRESHOLD then
    (s', some { level := .warning, usage := usage })
  else
    (s', none)

/-- `estimateTokens` really is the ceiling of `length / 4`. -/
theorem estimateTokens_eq_ceil (content : String) :
    (estimateTokens content : Int) = ⌈(content.length : Rat) / 4⌉ := by
  unfold estimateTokens
  have h := Nat.div_add_mod (content.length + 3) 4
  set q := (content.length + 3) / 4 with hq
  set r := (content.length + 3) % 4 with hr
  have hrlt : r < 4 := Nat.mod_lt _ (by norm_num)
  symm
  rw [Int.ceil_eq_iff]
  constructor
  · push_cast
    rw [lt_div_iff₀ (by norm_num : (0:ℚ) < 4)]
    have h4q : 4 * q ≤ content.length + 3 := by omega
    have hql : (4 : ℚ) * q ≤ (content.length : ℚ) + 3 := by exact_mod_cast h4q
    linarith
  · rw [div_le_iff₀ (by norm_num : (0:ℚ) < 4)]
    push_cast
    have hlen : content.length ≤ 4 * q := by omega
    have : (content.length : ℚ) ≤ 4 * q := by exact_mod_cast hlen
    linarith

/-- C5: each `addMessage` call adds `ceil(len(content)/4)` to the session's
estimated token count, sets the usage ratio to
`min(estimated_tokens / 200000, 1)`, and returns a critical warning iff
`u ≥ 0.95`, a warning iff `0.80 ≤ u < 0.95`, nothing iff `u < 0.80`; the
estimated token count never decreases. -/
theorem c5_contextMonitor (s : SessionStats) (content : String) (isUserRole : Bool)
    (now : Nat) (s' : SessionStats) (w : Option ContextWarning)
    (h : addMessage (some s) content isUserRole now = (s', w)) :
    (s'.estimatedTokens : Int) = (s.estimatedTokens : Int) + ⌈(content.length : Rat) / 4⌉
    ∧ s'.usage = min ((s'.estimatedTokens : Rat) / (CONTEXT_LIMIT : Rat)) 1
    ∧ (w = some { level := .critical, usage := s'.usage } ↔ CRITICAL_THRESHOLD ≤ s'.usage)
    ∧ (w = some { level := .warning, usage := s'.usage } ↔
        WARNING_THRESHOLD ≤ s'.usage ∧ s'.usage < CRITICAL_THRESHOLD)
    ∧ (w = none ↔ s'.usage < WARNING_THRESHOLD)
    ∧ s.estimatedTokens ≤ s'.estimatedTokens := by
  have hthr : WARNING_THRESHOLD < CRITICAL_THRESHOLD := by
    unfold WARNING_THRESHOLD CRITICAL_THRESHOLD; norm_num
  simp only [addMessage, Option.getD_some] at h
  set est := s.estimatedTokens + estimateTokens content with hest
  set u : Rat := ratMin ((est : Rat) / (CONTEXT_LIMIT : Rat)) 1 with hu
  have hestc : (est : Int) = (s.estimatedTokens : Int) + ⌈(content.length : Rat) / 4⌉ := by
    rw [hest, ← estimateTokens_eq_ceil]; push_cast; ring
  have hmono : s.estimatedTokens ≤ est := hest ▸ Nat.le_add_right _ _
  by_cases h1 : u ≥ CRITICAL_THRESHOLD
  · rw [if_pos h1] at h
    injection h with hs hw
    subst hs; subst hw
    refine ⟨hestc, by rw [hu, ratMin_eq_min], ⟨fun _ => h1, fun _ => rfl⟩, ?_, ?_, hmono⟩
    · simp only [Option.some.injEq, ContextWarning.mk.injEq, reduceCtorEq, false_and,
        false_iff, not_and, not_lt]
      intro _; exact h1
    · simp only [reduceCtorEq, false_iff, not_lt]
      exact le_trans (le_of_lt hthr) h1
  · rw [if_neg h1] at h
    by_cases h2 : u ≥ WARNING_THRESHOLD
    · rw [if_pos h2] at h
      injection h with hs hw
      subst hs; subst hw
      refine ⟨hestc, by rw [hu, ratMin_eq_min], ?_, ⟨fun _ => ⟨h2, not_le.mp h1⟩, fun _ => rfl⟩,
        ?_, hmono⟩
      · simp only [Option.some.injEq, ContextWarning.mk.injEq, reduceCtorEq, false_and,
          false_iff]
        exact h1
      · simp only [reduceCtorEq, false_iff, not_lt]
        exact h2
    · rw [if_neg h2] at h
      injection h with hs hw
      subst hs; subst hw
      refine ⟨hestc, by rw [hu, ratMin_eq_min], ?_, ?_, ⟨fun _ => not_le.mp h2, fun _ => rfl⟩,
        hmono⟩
      · simp only [reduceCtorEq, false_iff]
        exact h1
      · simp only [reduceCtorEq, false_iff, not_and, not_lt]
        intro hw'; exact absurd hw' h2

/-- Witness for C5 at a concrete input: an 8-character message on a fresh
session yields 2 estimated tokens and no warning. -/
theorem c5_contextMonitor_witness :
    (addMessage (some ⟨0, 0, 0, 0, 0⟩) "abcdefgh" false 0).2 = none := by
  have h := c5_contextMonitor ⟨0, 0, 0, 0, 0⟩ "abcdefgh" false 0
      (addMessage (some ⟨0, 0, 0, 0, 0⟩) "abcdefgh" false 0).1
      (addMessage (some ⟨0, 0, 0, 0, 0⟩) "abcdefgh" false 0).2 rfl
  apply h.2.2.2.2.1.mpr
  have hceil : ((addMessage (some ⟨0, 0, 0, 0, 0⟩) "abcdefgh" false 0).1.estimatedTokens : Int)
      = 2 := by
    have hlen : ("abcdefgh" : String).length = 8 := rfl
    rw [h.1, hlen]
    rw [show ((8 : Nat) : Rat) / 4 = ((2 : Int) : Rat) by norm_num, Int.ceil_intCast]
    norm_num
  have hestn : (addMessage (some ⟨0, 0, 0, 0, 0⟩) "abcdefgh" false 0).1.estimatedTokens = 2 := by
    exact_mod_cast hceil
  rw [h.2.1, hestn]
  unfold CONTEXT_LIMIT WARNING_THRESHOLD
  exact lt_of_le_of_lt (min_le_left _ _) (by norm_num)

/-! ## Circuit Breaker (`src/src/circuit-breaker.ts`, class `CircuitBreaker`)

Three-state failure detector wrapping calls to the backend.  `Date.now()`
becomes an explicit `now : Nat` argument; the wrapped promise's outcome
becomes a `Bool` argument (`true` = resolved, `false` = rejected).  In the
fast-fail branch the wrapped function is not invoked, which the
`ExecOutcome.circuitOpenErr` constructor records. -/

/-- `enum CircuitState`. -/
inductive CircuitState
  | CLOSED
  | OPEN
  | HALF_OPEN
  deriving DecidableEq, Repr

/-- `CircuitBreakerOptions`. -/
structure CircuitBreakerOptions where
  failureThreshold : Nat
  successThreshold : Nat
  timeout : Nat
  monitoringPeriod : Nat
  deriving DecidableEq, Repr

/-- The mutable fields of `class CircuitBreaker`. -/
structure CBState where
  state : CircuitState
  failures : Nat
  successes : Nat
  nextAttempt : Nat
  lastFailureTime : Option Nat
  lastSuccessTime : Option Nat
  totalCalls : Nat
  totalFailures : Nat
  totalSuccesses : Nat
  deriving DecidableEq, Repr

/-- Field initialisers of `CircuitBreaker` (state CLOSED, all counters 0). -/
def CBState.initial : CBState :=
  { state := .CLOSED, failures := 0, successes := 0, nextAttempt := 0,
    lastFailureTime := none, lastSuccessTime := none,
    totalCalls := 0, totalFailures := 0, totalSuccesses := 0 }

/-- The message of the error thrown by the fast-fail branch of `execute`. -/
def circuitOpenErrorMessage : String := "Circuit breaker is OPEN - failing fast"

/-- `CircuitBreaker.cleanupOldFailures`: a failure older than the
monitoring window decays one from `failures` (`Math.max(0, f - 1)` is
truncated subtraction).  JS computes `cutoff = now - monitoringPeriod` on
signed numbers; since `lastFailureTime ≥ 0`, comparing against the
truncated `Nat` subtraction is equivalent. -/
def cleanupOldFailures (opts : CircuitBreakerOptions) (st : CBState) (now : Nat) : CBState :=
  if st.lastFailureTime.any (fun t => t < now - opts.monitoringPeriod) then
    { st with failures := st.failures - 1 }
  else st

/-- `CircuitBreaker.onSuccess`. -/
def onSuccess (opts : CircuitBreakerOptions) (st : CBState) (now : Nat) : CBState :=
  let st := { st with lastSuccessTime := some now, totalSuccesses := st.totalSuccesses + 1 }
  if st.state = .HALF_OPEN then
    if st.successes + 1 ≥ opts.successThreshold then
      { st with state := .CLOSED, failures := 0, successes := 0 }
    else
      { st with successes := st.successes + 1 }
  else if st.state = .CLOSED then
    { st with failures := st.failures - 1 }
  else
    { st with state := .CLOSED, failures := 0, successes := 0 }

/-- `CircuitBreaker.onFailure`. -/
def onFailure (opts : CircuitBreakerOptions) (st : CBState) (now : Nat) : CBState :=
  let st := { st with lastFailureTime := some now, failures := st.failures + 1,
                      totalFailures := st.totalFailures + 1 }
  if (st.state = .CLOSED ∧ st.failures ≥ opts.failureThreshold) ∨ st.state = .HALF_OPEN then
    { st with state := .OPEN, nextAttempt := now + opts.timeout }
  else
    st

/-- Result of one `execute` call: either the fast-fail `CIRCUIT_OPEN`
throw (wrapped function not invoked), or the wrapped function was invoked
and resolved (`true`) / rejected (`false`). -/
inductive ExecOutcome
  | circuitOpenErr
  | invoked (success : Bool)
  deriving DecidableEq, Repr

/-- `CircuitBreaker.execute`: `res` is the outcome of `await this.fn(args)`
when the call is admitted. -/
def execute (opts : CircuitBreakerOptions) (st : CBState) (now : Nat) (res : Bool) :
    CBState × ExecOutcome :=
  let st := { st with totalCalls := st.totalCalls + 1 }
  let st := cleanupOldFailures opts st now
  if st.state = .OPEN ∧ now < st.nextAttempt then
    (st, .circuitOpenErr)
  else
    let st := if st.state = .OPEN then { st with state := .HALF_OPEN, successes := 0 } else st
    if res then (onSuccess opts st now, .invoked true)
    else (onFailure opts st now, .invoked false)

/-- Fold a sequence of admitted failing calls (at the given times). -/
def runFailures (opts : CircuitBreakerOptions) (st : CBState) (times : List Nat) : CBState :=
  times.foldl (fun s t => (execute opts s t false).1) st

/-- Fold a sequence of admitted succeeding calls (at the given times). -/
def runSuccesses (opts : CircuitBreakerOptions) (st : CBState) (times : List Nat) : CBState :=
  times.foldl (fun s t => (execute opts s t true).1) st

theorem cleanup_state (opts : CircuitBreakerOptions) (st : CBState) (now : Nat) :
    (cleanupOldFailures opts st now).state = st.state := by
  unfold cleanupOldFailures
  split <;> rfl

theorem cleanup_nextAttempt (opts : CircuitBreakerOptions) (st : CBState) (now : Nat) :
    (cleanupOldFailures opts st now).nextAttempt = st.nextAttempt := by
  unfold cleanupOldFailures
  split <;> rfl

theorem cleanup_successes (opts : CircuitBreakerOptions) (st : CBState) (now : Nat) :
    (cleanupOldFailures opts st now).successes = st.successes := by
  unfold cleanupOldFailures
  split <;> rfl

theorem cleanup_lastFailureTime (opts : CircuitBreakerOptions) (st : CBState) (now : Nat) :
    (cleanupOldFailures opts st now).lastFailureTime = st.lastFailureTime := by
  unfold cleanupOldFailures
  split <;> rfl

/-- When the last failure is still inside the monitoring window, no decay
happens and `cleanupOldFailures` is the identity. -/
theorem cleanup_noDecay (opts : CircuitBreakerOptions) (st : CBState) (now : Nat)
    (hnd : ∀ l, st.lastFailureTime = some l → now ≤ l + opts.monitoringPeriod) :
    cleanupOldFailures opts st now = st := by
  unfold cleanupOldFailures
  rw [if_neg]
  cases hl : st.lastFailureTime with
  | none => simp
  | some l =>
    have h := hnd l hl
    simp only [hl, Option.any_some, decide_eq_true_eq]
    omega

/-- One failing call in CLOSED with the previous failure inside the
monitoring window: the count increments; the breaker trips iff the new
count reaches the threshold. -/
theorem execute_fail_closed (opts : CircuitBreakerOptions) (st : CBState) (now : Nat)
    (hst : st.state = .CLOSED)
    (hnd : ∀ l, st.lastFailureTime = some l → now ≤ l + opts.monitoringPeriod) :
    (execute opts st now false).1 =
      if st.failures + 1 ≥ opts.failureThreshold then
        { st with
          state := .OPEN,
          failures := st.failures + 1,
          lastFailureTime := some now,
          totalCalls := st.totalCalls + 1,
          totalFailures := st.totalFailures + 1,
          nextAttempt := now + opts.timeout }
      else
        { st with
          failures := st.failures + 1,
          lastFailureTime := some now,
          totalCalls := st.totalCalls + 1,
          totalFailures := st.totalFailures + 1 } := by
  have hcl : cleanupOldFailures opts { st with totalCalls := st.totalCalls + 1 } now
      = { st with totalCalls := st.totalCalls + 1 } :=
    cleanup_noDecay _ _ _ (fun l hl => hnd l hl)
  simp only [execute, hcl]
  rw [if_neg (by simp [hst])]
  rw [if_neg (by simp [hst])]
  rw [if_neg (by simp [hst])]
  simp only [onFailure, hst]
  by_cases hthr : st.failures + 1 ≥ opts.failureThreshold
  · rw [if_pos (Or.inl ⟨trivial, hthr⟩), if_pos hthr]
  · rw [if_neg, if_neg hthr]
    rintro (⟨-, hge⟩ | hho)
    · exact hthr hge
    · exact absurd hho (by simp)

/-- A run of failing calls that never reaches the threshold keeps the
breaker CLOSED, counts every failure, and records the last failure time. -/
theorem runFailures_stay_closed (opts : CircuitBreakerOptions) (ts : List Nat) :
    ∀ st : CBState,
      st.state = .CLOSED →
      st.failures + ts.length < opts.failureThreshold →
      (∀ l t, st.lastFailureTime = some l → ts.head? = some t → t ≤ l + opts.monitoringPeriod) →
      ts.Chain' (fun a b => b ≤ a + opts.monitoringPeriod) →
      (runFailures opts st ts).state = .CLOSED ∧
      (runFailures opts st ts).failures = st.failures + ts.length ∧
      ((ts = [] ∧ (runFailures opts st ts).lastFailureTime = st.lastFailureTime) ∨
       (∃ t, ts.getLast? = some t ∧ (runFailures opts st ts).lastFailureTime = some t)) := by
  induction ts with
  | nil =>
    intro st hst _ _ _
    exact ⟨hst, by simp [runFailures], Or.inl ⟨rfl, rfl⟩⟩
  | cons t ts ih =>
    intro st hst hlt hhead hchain
    have hnd : ∀ l, st.lastFailureTime = some l → t ≤ l + opts.monitoringPeriod :=
      fun l hl => hhead l t hl rfl
    have hstep := execute_fail_closed opts st t hst hnd
    have hnotge : ¬ st.failures + 1 ≥ opts.failureThreshold := by
      simp only [List.length_cons] at hlt; omega
    rw [if_neg hnotge] at hstep
    have hrun : runFailures opts st (t :: ts)
        = runFailures opts (execute opts st t false).1 ts := by
      simp [runFailures]
    rw [hrun, hstep]
    have hch := List.chain'_cons'.mp hchain
    obtain ⟨ha, hb, hc⟩ := ih
      { st with
        failures := st.failures + 1,
        lastFailureTime := some t,
        totalCalls := st.totalCalls + 1,
        totalFailures := st.totalFailures + 1 }
      hst
      (by
        show st.failures + 1 + ts.length < opts.failureThreshold
        simp only [List.length_cons] at hlt; omega)
      (by
        intro l t' hl ht'
        have hlt' : t = l := by simpa using hl
        subst hlt'
        exact hch.1 t' ht')
      hch.2
    refine ⟨ha, ?_, ?_⟩
    · rw [hb]
      show st.failures + 1 + ts.length = st.failures + (ts.length + 1)
      omega
    · rcases hc with ⟨hnil, hlast⟩ | ⟨t'', hg, hl⟩
      · subst hnil
        exact Or.inr ⟨t, rfl, by rw [hlast]⟩
      · refine Or.inr ⟨t'', ?_, hl⟩
        cases ts with
        | nil => simp at hg
        | cons b l => rw [List.getLast?_cons_cons]; exact hg

/-- From the initial state, `N` consecutive in-window failures reach OPEN. -/
theorem runFailures_trip (opts : CircuitBreakerOptions) (N : Nat)
    (hN : 0 < N) (hthr : opts.failureThreshold = N)
    (times : List Nat) (hlen : times.length = N)
    (hchain : times.Chain' (fun a b => b ≤ a + opts.monitoringPeriod)) :
    (runFailures opts CBState.initial times).state = .OPEN := by
  obtain ⟨ts, tl, rfl⟩ : ∃ ts tl, times = ts ++ [tl] := by
    rcases List.eq_nil_or_concat times with h | ⟨ts, tl, h⟩
    · subst h; simp at hlen; omega
    · exact ⟨ts, tl, by rw [h, List.concat_eq_append]⟩
  have hlen' : ts.length = N - 1 := by
    simp only [List.length_append, List.length_cons, List.length_nil] at hlen; omega
  have hchsplit := List.chain'_append.mp hchain
  obtain ⟨ha, hb, hc⟩ := runFailures_stay_closed opts ts CBState.initial rfl
    (by show 0 + ts.length < opts.failureThreshold; omega)
    (by intro l t hl _; simp [CBState.initial] at hl)
    hchsplit.1
  have hrw : runFailures opts CBState.initial (ts ++ [tl])
      = (execute opts (runFailures opts CBState.initial ts) tl false).1 := by
    simp [runFailures, List.foldl_append]
  rw [hrw]
  have hnd : ∀ l, (runFailures opts CBState.initial ts).lastFailureTime = some l →
      tl ≤ l + opts.monitoringPeriod := by
    intro l hl
    rcases hc with ⟨-, hlf⟩ | ⟨t'', hg, hlf⟩
    · rw [hlf] at hl; simp [CBState.initial] at hl
    · rw [hlf] at hl
      have ht'' : t'' = l := by simpa using hl
      subst ht''
      exact hchsplit.2.2 t'' (by simp [hg]) tl (by simp)
  have hstep := execute_fail_closed opts _ tl ha hnd
  rw [if_pos (by rw [hb]; omega)] at hstep
  rw [hstep]

/-- While OPEN before `nextAttempt`: fast-fail with the `CIRCUIT_OPEN`
error, the wrapped function is not invoked, and OPEN persists. -/
theorem execute_open_fastFail (opts : CircuitBreakerOptions) (st : CBState) (now : Nat)
    (res : Bool) (h1 : st.state = .OPEN) (h2 : now < st.nextAttempt) :
    (execute opts st now res).2 = .circuitOpenErr ∧
    (execute opts st now res).1.state = .OPEN ∧
    (execute opts st now res).1.nextAttempt = st.nextAttempt := by
  simp only [execute]
  rw [if_pos ⟨by rw [cleanup_state]; exact h1, by rw [cleanup_nextAttempt]; exact h2⟩]
  exact ⟨rfl, by rw [cleanup_state]; exact h1, by rw [cleanup_nextAttempt]⟩

/-- At or after `nextAttempt`, an OPEN breaker admits the call. -/
theorem execute_open_admit (opts : CircuitBreakerOptions) (st : CBState) (now : Nat)
    (res : Bool) (_h1 : st.state = .OPEN) (h2 : st.nextAttempt ≤ now) :
    (execute opts st now res).2 = .invoked res := by
  simp only [execute]
  rw [if_neg (by
    rintro ⟨-, hlt⟩
    rw [cleanup_nextAttempt] at hlt
    exact absurd hlt (not_lt.mpr h2))]
  cases res
  · rw [if_neg (by decide)]
  · rw [if_pos rfl]

/-- The admitted call of an OPEN breaker at/after `nextAttempt` runs in
HALF_OPEN with `successes` reset to 0: on success the new state follows
`onSuccess` from `successes = 0`. -/
theorem execute_open_admit_succ (opts : CircuitBreakerOptions) (M : Nat) (st : CBState)
    (now : Nat) (hM : opts.successThreshold = M)
    (h1 : st.state = .OPEN) (h2 : st.nextAttempt ≤ now) :
    (execute opts st now true).1.state = (if 1 ≥ M then CircuitState.CLOSED else .HALF_OPEN) ∧
    (execute opts st now true).1.successes = (if 1 ≥ M then 0 else 1) := by
  simp only [execute]
  rw [if_neg (by
    rintro ⟨-, hlt⟩
    rw [cleanup_nextAttempt] at hlt
    exact absurd hlt (not_lt.mpr h2))]
  rw [if_pos trivial]
  rw [if_pos (by rw [cleanup_state]; exact h1)]
  simp only [onSuccess]
  rw [if_pos trivial]
  rw [show (0 : Nat) + 1 = 1 from rfl, hM]
  by_cases hone : 1 ≥ M
  · rw [if_pos hone, if_pos hone, if_pos hone]
    exact ⟨rfl, rfl⟩
  · rw [if_neg hone, if_neg hone, if_neg hone]
    exact ⟨rfl, rfl⟩

/-- A failing admitted call while HALF_OPEN re-opens the breaker. -/
theorem execute_halfOpen_fail (opts : CircuitBreakerOptions) (st : CBState) (now : Nat)
    (h1 : st.state = .HALF_OPEN) :
    (execute opts st now false).1.state = .OPEN ∧
    (execute opts st now false).1.nextAttempt = now + opts.timeout := by
  simp only [execute]
  rw [if_neg (by
    rintro ⟨hs, -⟩
    rw [cleanup_state] at hs
    rw [h1] at hs
    exact absurd hs (by simp))]
  rw [if_neg (by decide)]
  rw [if_neg (by rw [cleanup_state, h1]; simp)]
  simp only [onFailure]
  rw [if_pos (Or.inr (by rw [cleanup_state]; exact h1))]
  exact ⟨rfl, rfl⟩

/-- A succeeding admitted call while HALF_OPEN: `successes` increments and
the breaker closes exactly when the success threshold is reached. -/
theorem execute_halfOpen_succ (opts : CircuitBreakerOptions) (M : Nat) (st : CBState)
    (now : Nat) (hM : opts.successThreshold = M) (h1 : st.state = .HALF_OPEN) :
    (execute opts st now true).1.state
      = (if st.successes + 1 ≥ M then CircuitState.CLOSED else .HALF_OPEN) ∧
    (execute opts st now true).1.successes
      = (if st.successes + 1 ≥ M then 0 else st.successes + 1) := by
  simp only [execute]
  rw [if_neg (by
    rintro ⟨hs, -⟩
    rw [cleanup_state] at hs
    rw [h1] at hs
    exact absurd hs (by simp))]
  rw [if_pos trivial]
  rw [if_neg (by rw [cleanup_state, h1]; simp)]
  simp only [onSuccess]
  rw [if_pos (by rw [cleanup_state]; exact h1)]
  rw [cleanup_successes, hM]
  by_cases hge : st.successes + 1 ≥ M
  · rw [if_pos hge, if_pos hge, if_pos hge]
    exact ⟨rfl, rfl⟩
  · rw [if_neg hge, if_neg hge, if_neg hge]
    constructor
    · show (cleanupOldFailures opts { st with totalCalls := st.totalCalls + 1 } now).state
        = CircuitState.HALF_OPEN
      rw [cleanup_state]; exact h1
    · rfl

/-- A run of succeeding calls from HALF_OPEN: the breaker stays HALF_OPEN
counting successes while short of the threshold, and closes exactly when
the threshold is reached. -/
theorem runSuccesses_halfOpen (opts : CircuitBreakerOptions) (M : Nat)
    (hM : opts.successThreshold = M) (ts : List Nat) :
    ∀ (st : CBState) (s : Nat), st.state = .HALF_OPEN → st.successes = s → 0 < s → s < M →
      (s + ts.length < M →
        (runSuccesses opts st ts).state = .HALF_OPEN ∧
        (runSuccesses opts st ts).successes = s + ts.length) ∧
      (s + ts.length = M → (runSuccesses opts st ts).state = .CLOSED) := by
  induction ts with
  | nil =>
    intro st s h1 h2 _ h4
    refine ⟨fun _ => ⟨h1, by simpa [runSuccesses] using h2⟩, fun he => ?_⟩
    simp only [List.length_nil, Nat.add_zero] at he
    omega
  | cons t ts ih =>
    intro st s h1 h2 h3 h4
    have hstep := execute_halfOpen_succ opts M st t hM h1
    rw [h2] at hstep
    have hrun : runSuccesses opts st (t :: ts)
        = runSuccesses opts (execute opts st t true).1 ts := by
      simp [runSuccesses]
    by_cases hs : s + 1 ≥ M
    · have hsM : s + 1 = M := by omega
      rw [if_pos hs, if_pos hs] at hstep
      constructor
      · intro hlt
        simp only [List.length_cons] at hlt
        omega
      · intro he
        have hts : ts = [] := by
          have : ts.length = 0 := by simp only [List.length_cons] at he; omega
          exact List.length_eq_zero.mp this
        subst hts
        rw [hrun]
        simpa [runSuccesses] using hstep.1
    · have hlt1 : s + 1 < M := by omega
      rw [if_neg hs, if_neg hs] at hstep
      rw [hrun]
      obtain ⟨hA, hB⟩ := ih (execute opts st t true).1 (s + 1) hstep.1 hstep.2 (by omega) hlt1
      constructor
      · intro h5
        simp only [List.length_cons] at h5
        have h6 : s + 1 + ts.length < M := by omega
        obtain ⟨hx, hy⟩ := hA h6
        exact ⟨hx, by rw [hy]; simp; omega⟩
      · intro h5
        simp only [List.length_cons] at h5
        exact hB (by omega)

/-- C2: from CLOSED with `failure_threshold = N`, any `N` consecutive
failing calls inside the monitoring window move the breaker to OPEN (and
no proper prefix does); while OPEN before `reopen_at` every call throws
the distinguished CIRCUIT_OPEN error without invoking the wrapped
function and leaves the breaker OPEN; the first call at or after
`reopen_at` is admitted (HALF_OPEN), where `success_threshold`
consecutive successes return it to CLOSED and any single failure
re-opens it. -/
theorem c2_circuitBreaker (opts : CircuitBreakerOptions) (N M : Nat)
    (hN : 0 < N) (hthr : opts.failureThreshold = N)
    (hM : 0 < M) (hsucc : opts.successThreshold = M) :
    (∀ times : List Nat, times.length = N →
      times.Chain' (fun a b => b ≤ a + opts.monitoringPeriod) →
      (∀ k, k < N → (runFailures opts CBState.initial (times.take k)).state = .CLOSED) ∧
      (runFailures opts CBState.initial times).state = .OPEN)
    ∧ (∀ st now res, st.state = .OPEN → now < st.nextAttempt →
      (execute opts st now res).2 = .circuitOpenErr ∧
      (execute opts st now res).1.state = .OPEN ∧
      (execute opts st now res).1.nextAttempt = st.nextAttempt)
    ∧ (∀ st now res, st.state = .OPEN → st.nextAttempt ≤ now →
      (execute opts st now res).2 = .invoked res)
    ∧ (∀ st t₀ ts, st.state = .OPEN → st.nextAttempt ≤ t₀ → (t₀ :: ts).length = M →
      (∀ k, 0 < k → k < M →
        (runSuccesses opts st ((t₀ :: ts).take k)).state = .HALF_OPEN ∧
        (runSuccesses opts st ((t₀ :: ts).take k)).successes = k) ∧
      (runSuccesses opts st (t₀ :: ts)).state = .CLOSED)
    ∧ (∀ st now, st.state = .HALF_OPEN → (execute opts st now false).1.state = .OPEN) := by
  refine ⟨?_, ?_, ?_, ?_, ?_⟩
  · intro times hlen hchain
    constructor
    · intro k hk
      refine (runFailures_stay_closed opts (times.take k) CBState.initial rfl ?_ ?_ ?_).1
      · show 0 + (times.take k).length < opts.failureThreshold
        rw [List.length_take, hlen, hthr]
        omega
      · intro l t hl _
        simp [CBState.initial] at hl
      · have hsplit := List.take_append_drop k times
        rw [← hsplit] at hchain
        exact (List.chain'_append.mp hchain).1
    · exact runFailures_trip opts N hN hthr times hlen hchain
  · intro st now res h1 h2
    exact execute_open_fastFail opts st now res h1 h2
  · intro st now res h1 h2
    exact execute_open_admit opts st now res h1 h2
  · intro st t₀ ts h1 h2 hlen
    have hstep := execute_open_admit_succ opts M st t₀ hsucc h1 h2
    have hlen' : ts.length = M - 1 := by
      simp only [List.length_cons] at hlen; omega
    by_cases hone : 1 ≥ M
    · have hM1 : M = 1 := by omega
      rw [if_pos hone, if_pos hone] at hstep
      constructor
      · intro k hk0 hkM
        exact absurd hkM (by omega)
      · have hts : ts = [] := List.length_eq_zero.mp (by omega)
        subst hts
        simpa [runSuccesses] using hstep.1
    · rw [if_neg hone, if_neg hone] at hstep
      constructor
      · intro k hk0 hkM
        obtain ⟨k', rfl⟩ : ∃ k', k = k' + 1 := ⟨k - 1, by omega⟩
        have htake : (t₀ :: ts).take (k' + 1) = t₀ :: ts.take k' := rfl
        rw [htake]
        have hrun : runSuccesses opts st (t₀ :: ts.take k')
            = runSuccesses opts (execute opts st t₀ true).1 (ts.take k') := by
          simp [runSuccesses]
        rw [hrun]
        by_cases hk'0 : k' = 0
        · subst hk'0
          exact ⟨by simpa [runSuccesses] using hstep.1, by simpa [runSuccesses] using hstep.2⟩
        · obtain ⟨hA, -⟩ := runSuccesses_halfOpen opts M hsucc (ts.take k')
            (execute opts st t₀ true).1 1 hstep.1 hstep.2 one_pos (by omega)
          have hlt : (ts.take k').length = k' := by
            rw [List.length_take]
            omega
          obtain ⟨hx, hy⟩ := hA (by rw [hlt]; omega)
          exact ⟨hx, by rw [hy, hlt]; omega⟩
      · have hrun : runSuccesses opts st (t₀ :: ts)
            = runSuccesses opts (execute opts st t₀ true).1 ts := by
          simp [runSuccesses]
        rw [hrun]
        obtain ⟨-, hB⟩ := runSuccesses_halfOpen opts M hsucc ts
          (execute opts st t₀ true).1 1 hstep.1 hstep.2 one_pos (by omega)
        exact hB (by rw [hlen']; omega)
  · intro st now h1
    exact (execute_halfOpen_fail opts st now h1).1

/-- Witness for C2 with `failure_threshold = success_threshold = 2`,
`timeout = 10`, `monitoring_window = 100`: two failures trip the breaker;
a call before `reopen_at` fast-fails; two successes starting at
`reopen_at` close it again; a failure in HALF_OPEN re-opens. -/
theorem c2_circuitBreaker_witness :
    (runFailures ⟨2, 2, 10, 100⟩ CBState.initial [0, 5]).state = .OPEN
    ∧ (execute ⟨2, 2, 10, 100⟩
        ⟨.OPEN, 2, 0, 10, some 5, none, 2, 2, 0⟩ 7 true).2 = .circuitOpenErr
    ∧ (runSuccesses ⟨2, 2, 10, 100⟩
        ⟨.OPEN, 2, 0, 10, some 5, none, 2, 2, 0⟩ [10, 11]).state = .CLOSED
    ∧ (execute ⟨2, 2, 10, 100⟩
        ⟨.HALF_OPEN, 0, 1, 10, some 5, none, 3, 2, 1⟩ 12 false).1.state = .OPEN := by
  have h := c2_circuitBreaker ⟨2, 2, 10, 100⟩ 2 2 (by decide) rfl (by decide) rfl
  refine ⟨?_, ?_, ?_, ?_⟩
  · exact (h.1 [0, 5] rfl (List.chain'_cons.mpr ⟨by decide, List.chain'_singleton 5⟩)).2
  · exact (h.2.1 _ 7 true rfl (by decide)).1
  · exact (h.2.2.2.1 _ 10 [11] rfl (by decide) rfl).2
  · exact h.2.2.2.2 _ 12 rfl

/-! ## Permission Broker (`src/unnamed/part_002`, class `ClaudeACPAgent`)

`requiresExplicitPermission`, `generatePermissionOptions`,
`isAutoApprovableOperation` and `requestEnhancedPermission`.  The raw tool
input is an arbitrary JS object; only the `command` field is inspected by
the broker, so the embedding keeps just that field, with `input = none`
exactly when `isValidInput` is false.  `process.cwd()` becomes an explicit
`cwd` argument. -/

/-- JS `s.startsWith(pre)`. -/
def strStartsWith (s pre : String) : Bool :=
  pre.data.isPrefixOf s.data

/-- `ToolOperationContext['operationType']` values. -/
inductive OperationType
  | read
  | create
  | edit
  | delete
  | move
  | search
  | execute
  | think
  | fetch
  | other
  deriving DecidableEq, Repr

/-- The inspected fields of the raw tool input object. -/
structure ToolInput where
  command : Option String
  deriving DecidableEq, Repr

/-- The fields of `ToolOperationContext` used by the permission broker. -/
structure ToolOperationContext where
  toolName : String
  operationType : Option OperationType
  affectedFiles : Option (List String)
  input : Option ToolInput
  deriving DecidableEq, Repr

/-- `const dangerousCommands = ['rm', 'sudo', 'chmod', 'chown', 'mv', 'cp', 'dd']`. -/
def dangerousCommands : List String := ["rm", "sudo", "chmod", "chown", "mv", "cp", "dd"]

/-- `ClaudeACPAgent.requiresExplicitPermission`.  The command check is
`command.includes(cmd)` — substring containment; the path check is
`path.startsWith('/') && !path.startsWith(cwd)` — raw prefix tests. -/
def requiresExplicitPermission (cwd : String) (ctx : ToolOperationContext) : Bool :=
  if ctx.operationType == some .delete then true
  else if (ctx.operationType == some .execute) &&
      (match ctx.input with
       | some inp => dangerousCommands.any (fun cmd => strIncludes (inp.command.getD "") cmd)
       | none => false) then true
  else
    match ctx.affectedFiles with
    | some files => files.any (fun p => strStartsWith p "/" && !(strStartsWith p cwd))
    | none => false

/-- `PermissionOption.kind` values. -/
inductive PermissionOptionKind
  | allow_once
  | allow_always
  | reject_once
  | reject_always
  deriving DecidableEq, Repr

/-- A `PermissionOption` sent to the host. -/
structure PermissionOption where
  optionId : String
  name : String
  kind : PermissionOptionKind
  deriving DecidableEq, Repr

/-- `ClaudeACPAgent.generatePermissionOptions`. -/
def generatePermissionOptions (ctx : ToolOperationContext) : List PermissionOption :=
  let options : List PermissionOption :=
    [ { optionId := "allow_once", name := "Allow this time", kind := .allow_once },
      { optionId := "reject_once", name := "Deny this time", kind := .reject_once } ]
  let options :=
    if ctx.operationType != some .delete then
      options ++ [{ optionId := "allow_always",
                    name := "Always allow this type of operation",
                    kind := .allow_always }]
    else options
  options ++ [{ optionId := "reject_always",
                name := "Never allow this type of operation",
                kind := .reject_always }]

/-- `ClaudeACPAgent.isAutoApprovableOperation`:
`new Set(['read', 'search']).has(context.operationType || 'other')`. -/
def isAutoApprovableOperation (ctx : ToolOperationContext) : Bool :=
  let t := ctx.operationType.getD .other
  (t == .read) || (t == .search)

/-- Session permission modes (`"default" | "acceptEdits" |
"bypassPermissions" | "plan"`). -/
inductive PermissionMode
  | default
  | acceptEdits
  | bypassPermissions
  | plan
  deriving DecidableEq, Repr

/-- Host answer to `session/request_permission`. -/
inductive PermissionOutcome
  | cancelled
  | selected (optionId : String)
  deriving DecidableEq, Repr

/-- `ClaudeACPAgent.requestEnhancedPermission`: `host` is the result of
`await this.client.requestPermission(...)` (`Except.error` when the call
throws); the returned `Bool` is the allow/deny decision. -/
def requestEnhancedPermission (mode : PermissionMode) (cwd : String)
    (ctx : ToolOperationContext) (host : Except Unit PermissionOutcome) : Bool :=
  if mode == .bypassPermissions then true
  else if (mode == .acceptEdits) && isAutoApprovableOperation ctx then true
  else if requiresExplicitPermission cwd ctx then
    match host with
    | .error _ => (mode == .acceptEdits) && isAutoApprovableOperation ctx
    | .ok .cancelled => false
    | .ok (.selected optionId) =>
        match (generatePermissionOptions ctx).find? (fun o => o.optionId == optionId) with
        | some o => (o.kind == .allow_once) || (o.kind == .allow_always)
        | none => false
  else true

/-- The path of `requestEnhancedPermission` that actually issues the
outbound `session/request_permission` call. -/
def hostConsulted (mode : PermissionMode) (cwd : String) (ctx : ToolOperationContext) : Bool :=
  !(mode == .bypassPermissions)
    && !((mode == .acceptEdits) && isAutoApprovableOperation ctx)
    && requiresExplicitPermission cwd ctx

theorem strStartsWith_iff (s pre : String) :
    strStartsWith s pre = true ↔ pre.data <+: s.data := by
  unfold strStartsWith
  exact List.isPrefixOf_iff_prefix

/-- C10: when the outbound `session/request_permission` call throws, the
broker swallows the exception and returns deny, except that it returns
allow when the mode is acceptEdits and the operation is read or search. -/
theorem c10_hostFailure (mode : PermissionMode) (cwd : String) (ctx : ToolOperationContext)
    (h : hostConsulted mode cwd ctx = true) :
    requestEnhancedPermission mode cwd ctx (.error ()) =
      ((mode == PermissionMode.acceptEdits) && isAutoApprovableOperation ctx) := by
  unfold hostConsulted at h
  simp only [Bool.and_eq_true, Bool.not_eq_true'] at h
  obtain ⟨⟨h1, h2⟩, h3⟩ := h
  unfold requestEnhancedPermission
  rw [if_neg (by simp [h1]), if_neg (by simp [h2]), if_pos h3]

/-- Witness for C10: in default mode, a delete operation whose permission
request throws is denied. -/
theorem c10_hostFailure_witness :
    requestEnhancedPermission .default "/w"
      { toolName := "Delete", operationType := some .delete,
        affectedFiles := none, input := none }
      (.error ()) = false := by
  have h := c10_hostFailure .default "/w"
    { toolName := "Delete", operationType := some .delete,
      affectedFiles := none, input := none } (by decide)
  exact h.trans (by decide)

theorem generatePermissionOptions_kinds (ctx : ToolOperationContext) :
    (generatePermissionOptions ctx).map PermissionOption.kind
      = if ctx.operationType = some OperationType.delete
        then [.allow_once, .reject_once, .reject_always]
        else [.allow_once, .reject_once, .allow_always, .reject_always] := by
  by_cases hd : ctx.operationType = some OperationType.delete
  · rw [if_pos hd]
    simp only [generatePermissionOptions]
    rw [if_neg (by simp [hd])]
    rfl
  · rw [if_neg hd]
    simp only [generatePermissionOptions]
    rw [if_pos (by simp [hd])]
    rfl

/-- C4: the option list always contains allow_once, reject_once and
reject_always; it contains allow_always iff the operation type is not
delete; for delete the kinds are exactly
[allow_once, reject_once, reject_always]. -/
theorem c4_permissionOptions (ctx : ToolOperationContext) :
    (∃ o ∈ generatePermissionOptions ctx, o.kind = PermissionOptionKind.allow_once)
    ∧ (∃ o ∈ generatePermissionOptions ctx, o.kind = PermissionOptionKind.reject_once)
    ∧ (∃ o ∈ generatePermissionOptions ctx, o.kind = PermissionOptionKind.reject_always)
    ∧ ((∃ o ∈ generatePermissionOptions ctx, o.kind = PermissionOptionKind.allow_always)
        ↔ ctx.operationType ≠ some OperationType.delete)
    ∧ (ctx.operationType = some OperationType.delete →
        (generatePermissionOptions ctx).map PermissionOption.kind
          = [.allow_once, .reject_once, .reject_always]) := by
  have hm := generatePermissionOptions_kinds ctx
  have hmem : ∀ k, (∃ o ∈ generatePermissionOptions ctx, o.kind = k)
      ↔ k ∈ (generatePermissionOptions ctx).map PermissionOption.kind := by
    intro k
    rw [List.mem_map]
  by_cases hd : ctx.operationType = some OperationType.delete
  · rw [if_pos hd] at hm
    refine ⟨?_, ?_, ?_, ?_, fun _ => hm⟩
    · rw [hmem, hm]; decide
    · rw [hmem, hm]; decide
    · rw [hmem, hm]; decide
    · rw [hmem, hm]
      constructor
      · intro hfalse; exact absurd hfalse (by decide)
      · intro hne; exact absurd hd hne
  · rw [if_neg hd] at hm
    refine ⟨?_, ?_, ?_, ?_, fun hdel => absurd hdel hd⟩
    · rw [hmem, hm]; decide
    · rw [hmem, hm]; decide
    · rw [hmem, hm]; decide
    · rw [hmem, hm]
      exact ⟨fun _ => hd, fun _ => by decide⟩

/-- Witness for C4: for a delete operation the emitted kinds are exactly
allow_once, reject_once, reject_always. -/
theorem c4_permissionOptions_witness :
    (generatePermissionOptions
      { toolName := "Delete", operationType := some .delete,
        affectedFiles := none, input := none }).map PermissionOption.kind
      = [.allow_once, .reject_once, .reject_always] :=
  (c4_permissionOptions
    { toolName := "Delete", operationType := some .delete,
      affectedFiles := none, input := none }).2.2.2.2 rfl

/-- The danger test as C3's specification sentence states it: the command
string's whitespace-separated tokens (first or any) are matched exactly
against the danger list.  Defined from the spec's words, to be compared
with the code's `requiresExplicitPermission`. -/
def specDangerTokenTest (command : String) : Bool :=
  (command.data.splitOn ' ').any (fun tok => dangerousCommands.any (fun d => tok == d.data))

/-- Counterexample to C3: the command "echo formula" has no dangerous
token, the operation is not a delete and touches no paths, yet the code
requires confirmation, because `command.includes('rm')` is a substring
test and "formula" contains "rm". -/
theorem c3_counterexample :
    requiresExplicitPermission "/workspace"
      { toolName := "Bash", operationType := some OperationType.execute,
        affectedFiles := none,
        input := some { command := some "echo formula" } } = true
    ∧ specDangerTokenTest "echo formula" = false := by
  exact ⟨by decide, by decide⟩

/-- C3 (amended): the requires-confirmation test is TRUE exactly when the
operation type is delete; or the operation type is execute with a valid
input object and one of rm, sudo, chmod, chown, mv, cp, dd occurs as a
substring anywhere in the command string; or some affected path starts
with "/" and is not a string-prefix extension of the cwd (no
normalization).  When the test is FALSE the broker allows the operation
without issuing a permission request. -/
theorem c3_requiresPermission (cwd : String) (ctx : ToolOperationContext) :
    (requiresExplicitPermission cwd ctx = true ↔
      ctx.operationType = some OperationType.delete
      ∨ (ctx.operationType = some OperationType.execute ∧
          ∃ inp, ctx.input = some inp ∧
            ∃ d ∈ dangerousCommands, d.data <:+: (inp.command.getD "").data)
      ∨ (∃ files, ctx.affectedFiles = some files ∧
          ∃ p ∈ files, "/".data <+: p.data ∧ ¬ (cwd.data <+: p.data)))
    ∧ (requiresExplicitPermission cwd ctx = false →
        ∀ mode host, requestEnhancedPermission mode cwd ctx host = true) := by
  constructor
  · constructor
    · intro h
      unfold requiresExplicitPermission at h
      split_ifs at h with h1 h2
      · exact Or.inl (by simpa using h1)
      · right; left
        simp only [Bool.and_eq_true, beq_iff_eq] at h2
        obtain ⟨hop, hcmd⟩ := h2
        refine ⟨hop, ?_⟩
        cases hi : ctx.input with
        | none => rw [hi] at hcmd; simp at hcmd
        | some inp =>
          rw [hi] at hcmd
          simp only [List.any_eq_true] at hcmd
          obtain ⟨d, hd, hinc⟩ := hcmd
          refine ⟨inp, rfl, d, hd, ?_⟩
          simpa [strIncludes] using hinc
      · right; right
        cases hf : ctx.affectedFiles with
        | none => rw [hf] at h; simp at h
        | some files =>
          rw [hf] at h
          simp only [List.any_eq_true, Bool.and_eq_true, Bool.not_eq_true'] at h
          obtain ⟨p, hp, hstart, hncwd⟩ := h
          refine ⟨files, rfl, p, hp, (strStartsWith_iff p "/").mp hstart, ?_⟩
          intro hc
          rw [(strStartsWith_iff p cwd).mpr hc] at hncwd
          exact Bool.true_eq_false.mp hncwd
    · intro h
      unfold requiresExplicitPermission
      split_ifs with h1 h2
      · rfl
      · rfl
      · rcases h with hdel | ⟨hop, inp, hin, d, hd, hinf⟩ | ⟨files, hf, p, hp, hstart, hncwd⟩
        · exact absurd (by simp [hdel]) h1
        · exfalso
          apply h2
          simp only [Bool.and_eq_true, beq_iff_eq]
          refine ⟨hop, ?_⟩
          rw [hin]
          simp only [List.any_eq_true]
          exact ⟨d, hd, by simpa [strIncludes] using hinf⟩
        · rw [hf]
          simp only [List.any_eq_true, Bool.and_eq_true, Bool.not_eq_true']
          refine ⟨p, hp, (strStartsWith_iff p "/").mpr hstart, ?_⟩
          rcases hb : strStartsWith p cwd with _ | _
          · rfl
          · exact absurd ((strStartsWith_iff p cwd).mp hb) hncwd
  · intro hfalse mode host
    unfold requestEnhancedPermission
    by_cases hb : (mode == PermissionMode.bypassPermissions) = true
    · rw [if_pos hb]
    · rw [if_neg hb]
      by_cases ha : ((mode == PermissionMode.acceptEdits) && isAutoApprovableOperation ctx) = true
      · rw [if_pos ha]
      · rw [if_neg ha]
        rw [if_neg (by simp [hfalse])]

/-- Witness for the amended C3: a plain read with no affected paths fails
the test and is allowed without consulting the host. -/
theorem c3_requiresPermission_witness :
    requestEnhancedPermission .default "/w"
      { toolName := "Read", operationType := some .read,
        affectedFiles := none, input := none }
      (.ok .cancelled) = true := by
  have h := c3_requiresPermission "/w"
    { toolName := "Read", operationType := some .read,
      affectedFiles := none, input := none }
  exact h.2 (by decide) .default (.ok .cancelled)

/-! ## Inline permission markers
(`ClaudeACPAgent.parsePromptPermissionMode`, `src/unnamed/part_002`) -/

def ACCEPT_EDITS_MARKER : String := "[ACP:PERMISSION:ACCEPT_EDITS]"

def BYPASS_MARKER : String := "[ACP:PERMISSION:BYPASS]"

def DEFAULT_MARKER : String := "[ACP:PERMISSION:DEFAULT]"

/-- `ClaudeACPAgent.parsePromptPermissionMode`: three `includes` checks in
source order, falling back to `currentMode || this.defaultPermissionMode`. -/
def parsePromptPermissionMode (promptText : String) (currentMode : Option PermissionMode)
    (defaultPermissionMode : PermissionMode) : PermissionMode :=
  if strIncludes promptText ACCEPT_EDITS_MARKER then .acceptEdits
  else if strIncludes promptText BYPASS_MARKER then .bypassPermissions
  else if strIncludes promptText DEFAULT_MARKER then .default
  else currentMode.getD defaultPermissionMode

/-- Counterexample to C9: in this prompt the DEFAULT marker occurs first
(index 0) and the ACCEPT_EDITS marker only later (index 24), yet the
resulting mode is acceptEdits — the checks follow a fixed priority order,
not textual position. -/
theorem c9_counterexample :
    indexOfSub "[ACP:PERMISSION:DEFAULT][ACP:PERMISSION:ACCEPT_EDITS]" DEFAULT_MARKER = some 0
    ∧ indexOfSub "[ACP:PERMISSION:DEFAULT][ACP:PERMISSION:ACCEPT_EDITS]" ACCEPT_EDITS_MARKER
        = some 24
    ∧ parsePromptPermissionMode "[ACP:PERMISSION:DEFAULT][ACP:PERMISSION:ACCEPT_EDITS]"
        (some PermissionMode.default) PermissionMode.default = PermissionMode.acceptEdits :=
  ⟨by decide, by decide, by decide⟩

/-- C9 (amended): the markers are checked in the fixed priority order
ACCEPT_EDITS, then BYPASS, then DEFAULT — the highest-priority marker
present anywhere in the text determines the session's mode for this turn
onward, regardless of textual position; a prompt containing no marker
leaves the mode unchanged. -/
theorem c9_permissionMarkers (t : String) (m dflt : PermissionMode) :
    (indexOfSub t ACCEPT_EDITS_MARKER ≠ none →
      parsePromptPermissionMode t (some m) dflt = .acceptEdits)
    ∧ (indexOfSub t ACCEPT_EDITS_MARKER = none → indexOfSub t BYPASS_MARKER ≠ none →
      parsePromptPermissionMode t (some m) dflt = .bypassPermissions)
    ∧ (indexOfSub t ACCEPT_EDITS_MARKER = none → indexOfSub t BYPASS_MARKER = none →
      indexOfSub t DEFAULT_MARKER ≠ none →
      parsePromptPermissionMode t (some m) dflt = .default)
    ∧ (indexOfSub t ACCEPT_EDITS_MARKER = none → indexOfSub t BYPASS_MARKER = none →
      indexOfSub t DEFAULT_MARKER = none →
      parsePromptPermissionMode t (some m) dflt = m) := by
  have ha := indexOfSub_ne_none_iff t ACCEPT_EDITS_MARKER
  have hb := indexOfSub_ne_none_iff t BYPASS_MARKER
  have hd := indexOfSub_ne_none_iff t DEFAULT_MARKER
  refine ⟨?_, ?_, ?_, ?_⟩
  · intro h1
    unfold parsePromptPermissionMode
    rw [if_pos (ha.mp h1)]
  · intro h1 h2
    unfold parsePromptPermissionMode
    rw [if_neg (fun hs => (ha.mpr hs) h1), if_pos (hb.mp h2)]
  · intro h1 h2 h3
    unfold parsePromptPermissionMode
    rw [if_neg (fun hs => (ha.mpr hs) h1), if_neg (fun hs => (hb.mpr hs) h2),
      if_pos (hd.mp h3)]
  · intro h1 h2 h3
    unfold parsePromptPermissionMode
    rw [if_neg (fun hs => (ha.mpr hs) h1), if_neg (fun hs => (hb.mpr hs) h2),
      if_neg (fun hs => (hd.mpr hs) h3)]
    rfl

/-- Witness for the amended C9: a marker-free prompt leaves the mode as
it was. -/
theorem c9_permissionMarkers_witness :
    parsePromptPermissionMode "hello" (some PermissionMode.plan) PermissionMode.default
      = PermissionMode.plan := by
  have h := c9_permissionMarkers "hello" PermissionMode.plan PermissionMode.default
  exact h.2.2.2 (by decide) (by decide) (by decide)

/-! ## Plan synthesis (`ClaudeACPAgent.analyzePromptComplexity` /
`generateAndSendPlan`, `src/unnamed/part_002`) -/

/-- JS `s.toLowerCase()` (ASCII; the keyword scans are ASCII-only). -/
def jsToLower (s : String) : String := String.mk (s.data.map Char.toLower)

/-- `const complexKeywords = [...]`. -/
def complexKeywords : List String :=
  ["implement", "create", "build", "refactor", "restructure", "migrate", "optimize"]

/-- `const multiStepIndicators = [...]`. -/
def multiStepIndicators : List String :=
  ["first", "then", "next", "after", "finally", "step", "phase"]

/-- `ClaudeACPAgent.PROMPT_COMPLEXITY_THRESHOLD = 200`. -/
def PROMPT_COMPLEXITY_THRESHOLD : Nat := 200

/-- The control-flow fields computed by `analyzePromptComplexity` (its
`summary` field is produced by the cosmetic `generatePromptSummary` and is
carried through the plan generator as an opaque string). -/
structure PromptComplexity where
  isComplex : Bool
  needsPlan : Bool
  estimatedSteps : Nat
  deriving DecidableEq, Repr

/-- `ClaudeACPAgent.analyzePromptComplexity`. -/
def analyzePromptComplexity (prompt : String) : PromptComplexity :=
  let lowerPrompt := jsToLower prompt
  let hasComplexKeywords := complexKeywords.any (fun kw => strIncludes lowerPrompt kw)
  let hasMultiStepIndicators := multiStepIndicators.any (fun ind => strIncludes lowerPrompt ind)
  let isLongPrompt := prompt.length > PROMPT_COMPLEXITY_THRESHOLD
  let isComplex := hasComplexKeywords || hasMultiStepIndicators || isLongPrompt
  let needsPlan := isComplex && (hasMultiStepIndicators || isLongPrompt ||
      ((complexKeywords.filter (fun kw => strIncludes lowerPrompt kw)).length > 1))
  let estimatedSteps := 1 + (if hasMultiStepIndicators then 2 else 0)
      + (if hasComplexKeywords then 1 else 0) + (if isLongPrompt then 1 else 0)
  { isComplex := isComplex, needsPlan := needsPlan, estimatedSteps := estimatedSteps }

inductive PlanPriority
  | high
  | medium
  | low
  deriving DecidableEq, Repr

inductive PlanStatus
  | pending
  | in_progress
  | completed
  | failed
  deriving DecidableEq, Repr

/-- `PlanEntry`. -/
structure PlanEntry where
  content : String
  priority : PlanPriority
  status : PlanStatus
  deriving DecidableEq, Repr

/-- The plan built by `ClaudeACPAgent.generateAndSendPlan` (which then
stores it in `session.currentPlan` and sends it). -/
def generatePlanEntries (estimatedSteps : Nat) (summary : String) : List PlanEntry :=
  if estimatedSteps ≥ 3 then
    [ { content := "Analyze requirements and approach", priority := .high,
        status := .in_progress },
      { content := "Execute main implementation", priority := .high, status := .pending },
      { content := "Validate and finalize changes", priority := .medium, status := .pending } ]
  else
    [ { content := summary, priority := .high, status := .in_progress } ]

/-- Counterexample to C7: at a prompt with estimated step count ≥ 3 the
synthesized plan's first entry reads "Analyze requirements and approach",
not "Analyze requirements" as the claim states. -/
theorem c7_counterexample :
    (analyzePromptComplexity "first implement then test").estimatedSteps ≥ 3
    ∧ (generatePlanEntries (analyzePromptComplexity "first implement then test").estimatedSteps
        "s").map PlanEntry.content
        = ["Analyze requirements and approach", "Execute main implementation",
           "Validate and finalize changes"]
    ∧ "Analyze requirements and approach" ≠ "Analyze requirements" :=
  ⟨by decide, by decide, by decide⟩

/-- C7 (amended): for every prompt whose estimated step count is ≥ 3 the
synthesized plan is exactly [(Analyze requirements and approach, high,
in_progress), (Execute main implementation, high, pending), (Validate and
finalize changes, medium, pending)]; otherwise it is the single entry
(summary, high, in_progress). -/
theorem c7_planGeneration (p : String) (summary : String) :
    ((analyzePromptComplexity p).estimatedSteps ≥ 3 →
      generatePlanEntries (analyzePromptComplexity p).estimatedSteps summary
        = [ { content := "Analyze requirements and approach", priority := .high,
              status := .in_progress },
            { content := "Execute main implementation", priority := .high,
              status := .pending },
            { content := "Validate and finalize changes", priority := .medium,
              status := .pending } ])
    ∧ ((analyzePromptComplexity p).estimatedSteps < 3 →
      generatePlanEntries (analyzePromptComplexity p).estimatedSteps summary
        = [ { content := summary, priority := .high, status := .in_progress } ]) := by
  constructor
  · intro h
    unfold generatePlanEntries
    rw [if_pos h]
  · intro h
    unfold generatePlanEntries
    rw [if_neg (by omega)]

/-- Witness for the amended C7: a simple prompt gets the single-entry
plan built from its summary. -/
theorem c7_planGeneration_witness :
    generatePlanEntries (analyzePromptComplexity "hi").estimatedSteps
        "Processing simple request"
      = [ { content := "Processing simple request", priority := .high,
            status := .in_progress } ] :=
  (c7_planGeneration "hi" "Processing simple request").2 (by decide)

/-! ## In-band turn errors (`ClaudeACPAgent.executePrompt` catch branch and
`sendErrorMessage`, `src/unnamed/part_002`) -/

/-- Stop reasons a prompt turn can resolve with on this path. -/
inductive StopReason
  | end_turn
  | cancelled
  deriving DecidableEq, Repr

/-- `ClaudeACPAgent.sendErrorMessage`: the chunk text chosen for an error
message (`[RETRY] ...` for circuit-breaker errors, `[ERROR] ...`
otherwise). -/
def sendErrorMessageText (errorMessage : String) : String :=
  if strIncludes errorMessage "Circuit breaker is OPEN" then
    "[RETRY] Service temporarily unavailable - retrying automatically"
  else
    "[ERROR] Error: " ++ errorMessage

/-- The catch branch of `ClaudeACPAgent.executePrompt`: given whether the
session's abort signal fired and the thrown error's message, it yields
the `agent_message_chunk` texts emitted and the prompt response's stop
reason. -/
def executePromptCatch (aborted : Bool) (errorMessage : String) :
    List String × StopReason :=
  if aborted then ([], .cancelled)
  else ([sendErrorMessageText errorMessage], .end_turn)

/-- C6: when starting or consuming the backend stream throws while the
cancel token has not fired, exactly one in-band chunk is emitted — the
"service temporarily unavailable" text for the circuit breaker's
CIRCUIT_OPEN error, a text containing the error message otherwise — and
the turn still resolves with stop reason end_turn. -/
theorem c6_inBandErrors (msg : String) :
    (executePromptCatch false msg).2 = .end_turn
    ∧ (executePromptCatch false msg).1.length = 1
    ∧ (strIncludes msg "Circuit breaker is OPEN" = true →
        (executePromptCatch false msg).1
          = ["[RETRY] Service temporarily unavailable - retrying automatically"])
    ∧ (strIncludes msg "Circuit breaker is OPEN" = false →
        ∃ c, (executePromptCatch false msg).1 = [c] ∧ msg.data <:+: c.data)
    ∧ (executePromptCatch false circuitOpenErrorMessage).1
        = ["[RETRY] Service temporarily unavailable - retrying automatically"] := by
  refine ⟨rfl, ?_, ?_, ?_, by decide⟩
  · simp [executePromptCatch]
  · intro h
    simp [executePromptCatch, sendErrorMessageText, h]
  · intro h
    refine ⟨"[ERROR] Error: " ++ msg, ?_, ?_⟩
    · simp [executePromptCatch, sendErrorMessageText, h]
    · refine ⟨"[ERROR] Error: ".data, [], ?_⟩
      rw [List.append_nil]
      exact (String.data_append _ _).symm

/-- Witness for C6: the circuit breaker's own error message yields the
retry chunk, and a turn hitting it still ends with end_turn. -/
theorem c6_inBandErrors_witness :
    (executePromptCatch false circuitOpenErrorMessage).1
      = ["[RETRY] Service temporarily unavailable - retrying automatically"]
    ∧ (executePromptCatch false circuitOpenErrorMessage).2 = .end_turn := by
  have h := c6_inBandErrors circuitOpenErrorMessage
  exact ⟨h.2.2.1 (by decide), h.1⟩

/-! ## RPC error mapping and the busy-session gate
(`class RequestError` / `Connection.#tryCallHandler` /
`Connection.#sendParseError` in `src/unnamed/part_005`;
`ClaudeACPAgent.prompt` in `src/unnamed/part_002`) -/

/-- The payload of a `RequestError` as it appears in a JSON-RPC error
response: `code`, `message`, and `data.details`. -/
structure RequestError where
  code : Int
  message : String
  details : Option String
  deriving DecidableEq, Repr

/-- `RequestError.internalError`. -/
def RequestError.internalError (details : Option String) : RequestError :=
  { code := -32603, message := "Internal error", details := details }

/-- `RequestError.invalidParams`. -/
def RequestError.invalidParams (details : Option String) : RequestError :=
  { code := -32602, message := "Invalid params", details := details }

/-- `RequestError.sessionBusy` (declared in the source but, as C1 shows,
not used by the prompt path). -/
def RequestError.sessionBusy (sessionId : Option String) : RequestError :=
  { code := -32002, message := "Session busy: " ++ sessionId.getD "unknown",
    details := sessionId }

/-- The exceptions distinguished by `Connection.#tryCallHandler`:
a `RequestError`, a Zod validation error, or any other `Error` (carrying
its `message`). -/
inductive ThrownError
  | request (e : RequestError)
  | zod (formatted : String)
  | plain (message : String)
  deriving DecidableEq, Repr

/-- `Connection.#tryCallHandler`'s error translation: the error part of
the JSON-RPC response produced when the handler throws. -/
def tryCallHandlerError (e : ThrownError) : RequestError :=
  match e with
  | .request r => r
  | .zod f => RequestError.invalidParams (some f)
  | .plain msg => RequestError.internalError (some msg)

/-- The session fields touched by the entry of `ClaudeACPAgent.prompt`:
whether a prompt iterator is in flight and whether an abort controller is
installed. -/
structure AgentSession where
  pendingPrompt : Bool
  abortController : Bool
  deriving DecidableEq, Repr

/-- The busy gate at the top of `ClaudeACPAgent.prompt`: with a pending
prompt it throws a plain `Error('Session is busy processing another
prompt')` before touching any session state; otherwise it installs a
fresh abort controller and proceeds. -/
def promptEntry (session : AgentSession) : Except ThrownError AgentSession :=
  if session.pendingPrompt then
    .error (.plain "Session is busy processing another prompt")
  else
    .ok { session with abortController := true }

/-- Counterexample to C1: the busy rejection reaches the wire as code
-32603 "Internal error" (the generic `Error` mapping), not as -32002
"Session busy: S". -/
theorem c1_counterexample :
    promptEntry { pendingPrompt := true, abortController := true }
      = .error (.plain "Session is busy processing another prompt")
    ∧ (tryCallHandlerError (.plain "Session is busy processing another prompt")).code = -32603
    ∧ (tryCallHandlerError (.plain "Session is busy processing another prompt")).code ≠ -32002
    ∧ ∀ sessionId,
        tryCallHandlerError (.plain "Session is busy processing another prompt")
          ≠ RequestError.sessionBusy (some sessionId) := by
  refine ⟨rfl, rfl, by decide, ?_⟩
  intro sessionId h
  have := congrArg RequestError.code h
  simp [tryCallHandlerError, RequestError.internalError, RequestError.sessionBusy] at this

/-- C1 (amended): a `session/prompt` on a session with an in-flight turn
is rejected before any session-state change, with a plain Error that the
RPC layer maps to a JSON-RPC error response of code -32603, message
"Internal error" and data.details "Session is busy processing another
prompt"; the in-flight turn is unaffected (the throw precedes the
abort/controller reset). -/
theorem c1_sessionBusy (s : AgentSession) (h : s.pendingPrompt = true) :
    promptEntry s = .error (.plain "Session is busy processing another prompt")
    ∧ tryCallHandlerError (.plain "Session is busy processing another prompt")
        = { code := -32603, message := "Internal error",
            details := some "Session is busy processing another prompt" } := by
  constructor
  · unfold promptEntry
    rw [if_pos h]
  · rfl

/-- Witness for the amended C1 on a busy session. -/
theorem c1_sessionBusy_witness :
    promptEntry { pendingPrompt := true, abortController := false }
      = .error (.plain "Session is busy processing another prompt") :=
  (c1_sessionBusy { pendingPrompt := true, abortController := false } rfl).1

/-! ## Parse-error handling (`Connection.#receive` / `#sendParseError`) -/

/-- A JSON-RPC id: string, number, or null. -/
inductive RpcId
  | str (s : String)
  | num (n : Int)
  | null
  deriving DecidableEq, Repr

/-- The error response written by `Connection.#sendParseError`. -/
structure RpcErrorResponse where
  id : RpcId
  code : Int
  message : String
  data : Option String
  deriving DecidableEq, Repr

/-- `Connection.#sendParseError`: id is the literal string "parse-error". -/
def sendParseError (errorMessage : String) : RpcErrorResponse :=
  { id := .str "parse-error", code := -32700, message := "Parse error",
    data := some errorMessage }

/-- JS `line.trim()` (ASCII whitespace suffices for the embedding). -/
def jsTrim (s : String) : String :=
  String.mk (((s.data.dropWhile Char.isWhitespace).reverse.dropWhile Char.isWhitespace).reverse)

/-- What the per-line loop of `Connection.#receive` does with one line:
a parse-error response on decode failure, dispatch to `#processMessage`
on success. -/
inductive ReceiveOut (μ : Type)
  | parseError (r : RpcErrorResponse)
  | dispatched (m : μ)
  deriving DecidableEq, Repr

/-- The per-line loop of `Connection.#receive` over complete lines:
`decode` stands for `JSON.parse` (`Except.error` carries the exception's
message), `μ` the decoded message type. -/
def receiveLines {μ : Type} (decode : String → Except String μ) :
    List String → List (ReceiveOut μ)
  | [] => []
  | line :: rest =>
      let trimmedLine := jsTrim line
      if trimmedLine = "" then receiveLines decode rest
      else
        match decode trimmedLine with
        | .ok m => .dispatched m :: receiveLines decode rest
        | .error e => .parseError (sendParseError e) :: receiveLines decode rest

/-- Counterexample to C8: the parse-error response's id is the string
"parse-error", not null. -/
theorem c8_counterexample :
    (sendParseError "Unexpected token").id = RpcId.str "parse-error"
    ∧ (sendParseError "Unexpected token").id ≠ RpcId.null
    ∧ (sendParseError "Unexpected token").code = -32700 :=
  ⟨rfl, by decide, rfl⟩

/-- C8 (amended): every line that is non-empty after trimming and fails
to decode yields exactly one JSON-RPC error response with code -32700,
message "Parse error" and id the string "parse-error" (not null), and
processing of the remaining lines continues. -/
theorem c8_parseError {μ : Type} (decode : String → Except String μ)
    (line : String) (rest : List String) (e : String)
    (hne : jsTrim line ≠ "") (hdec : decode (jsTrim line) = .error e) :
    receiveLines decode (line :: rest)
      = .parseError (sendParseError e) :: receiveLines decode rest
    ∧ (sendParseError e).code = -32700
    ∧ (sendParseError e).message = "Parse error"
    ∧ (sendParseError e).id = RpcId.str "parse-error" := by
  refine ⟨?_, rfl, rfl, rfl⟩
  simp only [receiveLines]
  rw [if_neg hne, hdec]

/-- Witness for the amended C8: a malformed line produces the -32700
response and the loop continues (here, to the end of input). -/
theorem c8_parseError_witness :
    receiveLines (fun _ => (Except.error "bad" : Except String Unit)) ["oops"]
      = [.parseError (sendParseError "bad")] := by
  have h := c8_parseError (fun _ => (Except.error "bad" : Except String Unit))
    "oops" [] "bad" (by decide) rfl
  rw [h.1]
  rfl

end AcpBridge
